import Mathlib

/-!
Shallow embedding of the presence / call-signaling / message-delivery core of
`app.py` (a Flask-SocketIO chat/call server).  Python dicts are modelled as
insertion-ordered association lists, SQLAlchemy tables as lists of rows, and
each socket / HTTP handler as a pure function from server state (plus the
event payload) to a new state together with the list of emitted events.
-/

namespace CallApp

/-- Python truthiness of an optional string payload field (`data.get(k)`):
`None` and the empty string are falsy. -/
def pyTruthy : Option String → Bool
  | none => false
  | some s => !(s == "")

/-- A JWT access token: `jti` distinguishes tokens, `sub` is the embedded
identity (the username it was issued to, extracted by `decode_token`). -/
structure Token where
  jti : String
  sub : String
deriving DecidableEq, Repr

/-- The `status` column of `Message` / `AudioMessage`: sent, delivered, seen. -/
inductive Status
  | sent
  | delivered
  | seen
deriving DecidableEq, Repr

/-- Numeric rank of a status along the forward direction
sent → delivered → seen. -/
def Status.rank : Status → Nat
  | .sent => 0
  | .delivered => 1
  | .seen => 2

/-- A row of the `Message` table (the fields the core touches). `room_id` is
the legacy alternative room column ("" models NULL). -/
structure MessageRow where
  id : Nat
  room : String
  room_id : String
  sender : String
  content : String
  reply_to_message_id : Option Nat
  reply_content : Option String
  reply_sender : Option String
  status : Status
  reactions : List (String × String)
deriving DecidableEq, Repr

/-- A row of the `AudioMessage` table. -/
structure AudioRow where
  id : Nat
  room : String
  sender : String
  audio_data : String
  status : Status
  reactions : List (String × String)
deriving DecidableEq, Repr

/-- A row of the `UnreadMessage` table: unread count per (username, room). -/
structure UnreadRow where
  username : String
  room : String
  count : Nat
deriving DecidableEq, Repr

/-- The server's shared state: the `online_users` dict (sid → username,
insertion ordered like a Python dict), the `active_tokens` set, the three
persistent tables, socketio room membership (sid, room) and the next
autoincrement primary keys. -/
structure ServerState where
  online_users : List (String × String)
  active_tokens : List Token
  messages : List MessageRow
  audio_messages : List AudioRow
  unread : List UnreadRow
  room_members : List (String × String)
  next_msg_id : Nat
  next_audio_id : Nat
deriving DecidableEq, Repr

/-- Payload of a WebRTC `signal` event: an optional `target` username plus an
opaque body relayed verbatim. -/
structure SignalPayload where
  target : Option String
  body : String
deriving DecidableEq, Repr

/-- Outbound socket events, each addressed to a single sid (room-addressed
emissions are expanded over the room's membership). -/
inductive Event
  | force_logout (sid : String)
  | user_list_broadcast
  | room_joined (sid : String) (room_id : String) (peer : String)
  | call_error (sid : String) (message : String)
  | call_offer (sid : String) (fromUser : String) (call_type : String) (room_id : String)
  | signal (sid : String) (fromUser : String) (payload : SignalPayload)
  | message_delivered (sid : String) (message_id : Nat) (delivered_to : List String)
  | messages_delivered (sid : String) (message_ids : List Nat) (delivered_to : String)
  | messages_seen (sid : String) (message_ids : List Nat) (seen_by : String) (room : Option String)
  | receive_chat_message (sid : String) (fromUser : String) (message_id : Nat) (status : Status)
  | global_message_notification (sid : String) (fromUser : String) (room : String)
  | audio_message (sid : String) (fromUser : String) (message_id : Nat) (status : Status)
  | message_reactions_updated (sid : String) (message_id : Nat) (reactions : List (String × String))
deriving DecidableEq, Repr

/-! ### Python dict / ORM primitives -/

/-- `d[k] = v` on a Python dict modelled as an insertion-ordered assoc list:
update in place if the key is present, else append. -/
def dictInsert (k v : String) (d : List (String × String)) : List (String × String) :=
  if d.any (fun p => p.1 == k) then
    d.map (fun p => if p.1 == k then (k, v) else p)
  else
    d ++ [(k, v)]

/-- `get_user_sid(username)`: first sid in the `online_users` dict whose value
is `username` (the Python helper iterates in insertion order). -/
def get_user_sid (username : String) (d : List (String × String)) : Option String :=
  (d.find? (fun p => p.2 == username)).map (fun p => p.1)

/-- Update the first row matching `p` with `f` (a SQLAlchemy
`query.filter_by(...).first()` followed by a field assignment). -/
def updateFirst {α : Type} (p : α → Bool) (f : α → α) : List α → List α
  | [] => []
  | a :: rest => if p a then f a :: rest else a :: updateFirst p f rest

/-- `UnreadMessage` increment used on message send: bump the first matching
row, or insert a fresh row with count 1 when absent. -/
def incUnread (username room : String) : List UnreadRow → List UnreadRow
  | [] => [⟨username, room, 1⟩]
  | u :: rest =>
    if u.username == username && u.room == room then
      { u with count := u.count + 1 } :: rest
    else
      u :: incUnread username room rest

/-- Reset the first matching `UnreadMessage` row to 0 (`unread.count = 0`);
no-op when the row is absent. -/
def resetUnread (username room : String) (l : List UnreadRow) : List UnreadRow :=
  updateFirst (fun u => u.username == username && u.room == room)
    (fun u => { u with count := 0 }) l

/-- The unread count the store answers for (username, room): the first
matching row's count, or 0 when no row exists. -/
def unreadCount (username room : String) (l : List UnreadRow) : Nat :=
  match l.find? (fun u => u.username == username && u.room == room) with
  | some u => u.count
  | none => 0

/-- Split a character list on a separator, keeping empty pieces, like Python's
`str.split(sep)` (structurally recursive so the kernel can evaluate it). -/
def splitCharsOn (sep : Char) : List Char → List Char → List (List Char)
  | acc, [] => [acc.reverse]
  | acc, c :: cs =>
    if c == sep then acc.reverse :: splitCharsOn sep [] cs
    else splitCharsOn sep (c :: acc) cs

/-- `room.split('-')`: the room key's participant list. -/
def splitRoom (room : String) : List String :=
  (splitCharsOn '-' [] room.toList).map (fun cs => String.mk cs)

/-- Membership test for a username in a room key (`username in room.split('-')`). -/
def roomContains (room username : String) : Bool :=
  (splitRoom room).contains username

/-- The sids currently joined to a socketio room. -/
def roomSids (st : ServerState) (room : String) : List String :=
  st.room_members.filterMap (fun p => if p.2 == room then some p.1 else none)

/-- Expand an `emit(..., room=roomKey, ...)` over the room's membership,
optionally excluding the requesting sid (`include_self=False`). -/
def emitToRoom (st : ServerState) (room : String) (exclude : Option String)
    (mk : String → Event) : List Event :=
  (roomSids st room).filterMap (fun s => if exclude == some s then none else some (mk s))

/-! ### `update_delivery_status_for_user` (delivery promotion on register) -/

/-- The distinct `Message.room` values that contain `username`, in first-seen
order (`db.session.query(Message.room).distinct()`). -/
def deliveryRooms (st : ServerState) (username : String) : List String :=
  ((st.messages.map (fun m => m.room)).eraseDups).filter (fun r => roomContains r username)

/-- Whether a text message row gets promoted sent → delivered when `username`
comes online: its room is one of the visited rooms, it is still `sent`, and
`username` did not author it. -/
def promotesText (rooms : List String) (username : String) (m : MessageRow) : Bool :=
  rooms.contains m.room && m.status == .sent && !(m.sender == username)

/-- Audio analogue of `promotesText`. -/
def promotesAudio (rooms : List String) (username : String) (m : AudioRow) : Bool :=
  rooms.contains m.room && m.status == .sent && !(m.sender == username)

/-- The `updated_messages` list built by `update_delivery_status_for_user`:
per visited room, the promoted text rows then the promoted audio rows, each as
(id, sender). -/
def deliveryUpdates (st : ServerState) (username : String) : List (Nat × String) :=
  (deliveryRooms st username).flatMap (fun room =>
    ((st.messages.filter (fun m => m.room == room && m.status == .sent && !(m.sender == username))).map
      (fun m => (m.id, m.sender)))
    ++ ((st.audio_messages.filter (fun m => m.room == room && m.status == .sent && !(m.sender == username))).map
      (fun m => (m.id, m.sender))))

/-- `update_delivery_status_for_user(username)`: flip every `sent` message in
a room containing `username`, authored by someone else, to `delivered`; notify
each distinct sender (when online) once with the ids that just became
delivered. -/
def update_delivery_status_for_user (st : ServerState) (username : String) :
    ServerState × List Event :=
  let rooms := deliveryRooms st username
  let updates := deliveryUpdates st username
  let st' := { st with
    messages := st.messages.map (fun m =>
      if promotesText rooms username m then { m with status := .delivered } else m),
    audio_messages := st.audio_messages.map (fun m =>
      if promotesAudio rooms username m then { m with status := .delivered } else m) }
  let events :=
    if updates.isEmpty then []
    else
      ((updates.map (fun u => u.2)).eraseDups).filterMap (fun s =>
        (get_user_sid s st.online_users).map (fun sid =>
          Event.messages_delivered sid
            ((updates.filter (fun u => u.2 == s)).map (fun u => u.1)) username))
  (st', events)

/-! ### `register` handler -/

/-- `online_users` with every other sid mapped to `username` evicted
(the `to_remove` loop of the register handler). -/
def cleanedRegistry (sid username : String) (d : List (String × String)) :
    List (String × String) :=
  d.filter (fun p => !(p.2 == username && !(p.1 == sid)))

/-- The registry after a successful register: old sids for the username
evicted, then `online_users[sid] = username`. -/
def registeredState (st : ServerState) (sid username : String) : ServerState :=
  let cleaned := cleanedRegistry sid username st.online_users
  { st with online_users := dictInsert sid username cleaned }

/-- The `register` socket handler: requires truthy username and token; rejects
(`force_logout`) a token not in `active_tokens`; evicts any other sid mapped
to the same username; installs sid ↦ username; promotes pending deliveries for
that user; broadcasts the roster.  Returns the handler's boolean result. -/
def on_register (st : ServerState) (sid : String)
    (username? : Option String) (token? : Option Token) :
    Bool × ServerState × List Event :=
  match username?, token? with
  | some username, some token =>
    if username == "" then (false, st, [])
    else if !(st.active_tokens.contains token) then
      (false, st, [Event.force_logout sid])
    else
      let r := update_delivery_status_for_user (registeredState st sid username) username
      (true, r.1, r.2 ++ [Event.user_list_broadcast])
  | _, _ => (false, st, [])

/-- The `authenticate` socket handler: true iff a token is supplied, it is in
`active_tokens`, and it decodes (decoding always succeeds in the model; the
decoded identity is `token.sub` but is only logged, never compared). -/
def on_authenticate (st : ServerState) (token? : Option Token) : Bool :=
  match token? with
  | some token => st.active_tokens.contains token
  | none => false

/-! ### `send_chat_message` handler -/

/-- The `send_chat_message` socket handler: validates truthy room / message /
sender; persists the message with status `sent`; for each *online* recipient
(room participants minus the sender) bumps that recipient's unread row and
records them as delivered-to; promotes the new row to `delivered` when that
set is non-empty (notifying the online sender); broadcasts to the room and
sends a global notification to every other online user. -/
def on_send_chat_message (st : ServerState)
    (room? message? sender? : Option String)
    (reply_to : Option Nat) (reply_content reply_sender : Option String) :
    ServerState × List Event :=
  match room?, message?, sender? with
  | some room, some message, some sender =>
    if room == "" || message == "" || sender == "" then (st, [])
    else
      let mid := st.next_msg_id
      let recipients := (splitRoom room).filter (fun p => !(p == sender))
      let delivered_to := recipients.filter (fun r => (get_user_sid r st.online_users).isSome)
      let unread1 := delivered_to.foldl (fun u r => incUnread r room u) st.unread
      let finalStatus : Status := if delivered_to.isEmpty then .sent else .delivered
      let newMsg : MessageRow :=
        { id := mid, room := room, room_id := "", sender := sender, content := message,
          reply_to_message_id := reply_to, reply_content := reply_content,
          reply_sender := reply_sender, status := finalStatus, reactions := [] }
      let st' := { st with
        messages := st.messages ++ [newMsg],
        unread := unread1,
        next_msg_id := mid + 1 }
      let deliveredEvents :=
        if delivered_to.isEmpty then []
        else
          match get_user_sid sender st.online_users with
          | some ssid => [Event.message_delivered ssid mid delivered_to]
          | none => []
      let roomEvents := emitToRoom st room none
        (fun s => Event.receive_chat_message s sender mid finalStatus)
      let globalEvents := st.online_users.filterMap (fun p =>
        if !(p.2 == sender) then some (Event.global_message_notification p.1 sender room)
        else none)
      (st', deliveredEvents ++ roomEvents ++ globalEvents)
  | _, _, _ => (st, [])

/-! ### `audio_message` handler -/

/-- The `audio_message` socket handler (no payload validation in the source: a
missing room would abort at the NOT NULL commit before any status change, so
the model takes the fields as plain strings).  Persists the audio row with
status `sent`, bumps unread rows for online recipients, promotes to
`delivered` when any recipient is online, notifies the sender, broadcasts to
the room. -/
def on_audio_message (st : ServerState) (room sender blob : String) :
    ServerState × List Event :=
  let aid := st.next_audio_id
  let recipients := (splitRoom room).filter (fun p => !(p == sender))
  let delivered_to := recipients.filter (fun r => (get_user_sid r st.online_users).isSome)
  let unread1 := delivered_to.foldl (fun u r => incUnread r room u) st.unread
  let finalStatus : Status := if delivered_to.isEmpty then .sent else .delivered
  let newAudio : AudioRow :=
    { id := aid, room := room, sender := sender, audio_data := blob,
      status := finalStatus, reactions := [] }
  let st' := { st with
    audio_messages := st.audio_messages ++ [newAudio],
    unread := unread1,
    next_audio_id := aid + 1 }
  let deliveredEvents :=
    if delivered_to.isEmpty then []
    else
      match get_user_sid sender st.online_users with
      | some ssid => [Event.message_delivered ssid aid delivered_to]
      | none => []
  let roomEvents := emitToRoom st room none
    (fun s => Event.audio_message s sender aid finalStatus)
  (st', deliveredEvents ++ roomEvents)

/-! ### `mark_seen` handler -/

/-- One entry of `mark_seen`'s `updated_messages` list: the id that was
flipped to `seen`, whether it came from the audio table, and its sender. -/
structure SeenUpd where
  id : Nat
  isAudio : Bool
  sender : String
deriving DecidableEq, Repr

/-- `Message.query.get(msg_id)` + the conditional status update of
`mark_seen` on the text table: returns the updated table and the row's sender
when the row exists, was authored by someone else and was not yet seen. -/
def setSeenText (mid : Nat) (current_user : String) (msgs : List MessageRow) :
    List MessageRow × Option String :=
  match msgs.find? (fun m => m.id == mid) with
  | some m =>
    if !(m.sender == current_user) && !(m.status == Status.seen) then
      (updateFirst (fun x => x.id == mid) (fun x => { x with status := Status.seen }) msgs,
       some m.sender)
    else (msgs, none)
  | none => (msgs, none)

/-- Audio-table analogue of `setSeenText`. -/
def setSeenAudio (mid : Nat) (current_user : String) (msgs : List AudioRow) :
    List AudioRow × Option String :=
  match msgs.find? (fun m => m.id == mid) with
  | some m =>
    if !(m.sender == current_user) && !(m.status == Status.seen) then
      (updateFirst (fun x => x.id == mid) (fun x => { x with status := Status.seen }) msgs,
       some m.sender)
    else (msgs, none)
  | none => (msgs, none)

/-- The id loop of `mark_seen`: for each id, check the text table then the
audio table, flipping eligible rows to `seen` and accumulating
`updated_messages`. -/
def mark_seen_core (current_user : String) :
    List Nat → List MessageRow → List AudioRow →
    List MessageRow × List AudioRow × List SeenUpd
  | [], msgs, audios => (msgs, audios, [])
  | mid :: rest, msgs, audios =>
    let (msgs1, s1) := setSeenText mid current_user msgs
    let (audios1, s2) := setSeenAudio mid current_user audios
    let (msgs2, audios2, upds) := mark_seen_core current_user rest msgs1 audios1
    (msgs2, audios2,
      (match s1 with | some s => [⟨mid, false, s⟩] | none => []) ++
      (match s2 with | some s => [⟨mid, true, s⟩] | none => []) ++ upds)

/-- The `messages_seen` notifications of `mark_seen`: one event per distinct
sender (in `updated_messages` order) that is currently online, listing the ids
of their messages that just became seen. -/
def seenNotifications (st : ServerState) (upds : List SeenUpd)
    (current_user : String) (room? : Option String) : List Event :=
  ((upds.map (fun u => u.sender)).eraseDups).filterMap (fun s =>
    (get_user_sid s st.online_users).map (fun sid =>
      Event.messages_seen sid
        ((upds.filter (fun u => u.sender == s)).map (fun u => u.id))
        current_user room?))

/-- The `mark_seen` socket handler: requires a non-empty id list and a truthy
viewer; flips eligible rows to `seen`; when at least one row changed, notifies
the senders and — only then, and only when `room` is truthy — resets the
viewer's unread row for the room to zero. -/
def mark_seen (st : ServerState) (message_ids : List Nat)
    (current_user? room? : Option String) : ServerState × List Event :=
  match current_user? with
  | some current_user =>
    if message_ids.isEmpty || current_user == "" then (st, [])
    else
      let (msgs', audios', upds) :=
        mark_seen_core current_user message_ids st.messages st.audio_messages
      if upds.isEmpty then
        ({ st with messages := msgs', audio_messages := audios' }, [])
      else
        let events := seenNotifications st upds current_user room?
        let unread' :=
          match room? with
          | some room => if room == "" then st.unread else resetUnread current_user room st.unread
          | none => st.unread
        ({ st with messages := msgs', audio_messages := audios', unread := unread' }, events)
  | none => (st, [])

/-! ### Reaction routes -/

/-- Outcome of the `/react_message` and `/remove_reaction` HTTP routes. -/
inductive ReactResult
  | missingData
  | notFound
  | ok (reactions : List (String × String))
  | crash
deriving DecidableEq, Repr

/-- `reactions[username] = emoji` on the JSON reactions dict. -/
def setReaction (username emoji : String) (reactions : List (String × String)) :
    List (String × String) :=
  dictInsert username emoji reactions

/-- `del reactions[username]` on the JSON reactions dict. -/
def eraseReaction (username : String) (reactions : List (String × String)) :
    List (String × String) :=
  reactions.filter (fun p => !(p.1 == username))

/-- The `/react_message` route: requires truthy message_id / emoji / username;
looks the id up in the *AudioMessage* table first, falling back to `Message`;
overwrites the user's reaction; broadcasts the full updated mapping to the
record's room. -/
def react_message (st : ServerState) (message_id? : Option Nat)
    (emoji? username? : Option String) : ReactResult × ServerState × List Event :=
  match message_id?, emoji?, username? with
  | some mid, some emoji, some username =>
    if mid == 0 || emoji == "" || username == "" then (.missingData, st, [])
    else
      match st.audio_messages.find? (fun a => a.id == mid) with
      | some a =>
        let reactions := setReaction username emoji a.reactions
        let audios' := updateFirst (fun x => x.id == mid)
          (fun x => { x with reactions := reactions }) st.audio_messages
        let st' := { st with audio_messages := audios' }
        let room := a.room
        let ev := if room == "" then []
          else emitToRoom st room none (fun s => Event.message_reactions_updated s mid reactions)
        (.ok reactions, st', ev)
      | none =>
        match st.messages.find? (fun m => m.id == mid) with
        | some m =>
          let reactions := setReaction username emoji m.reactions
          let msgs' := updateFirst (fun x => x.id == mid)
            (fun x => { x with reactions := reactions }) st.messages
          let st' := { st with messages := msgs' }
          let room := if m.room == "" then m.room_id else m.room
          let ev := if room == "" then []
            else emitToRoom st room none (fun s => Event.message_reactions_updated s mid reactions)
          (.ok reactions, st', ev)
        | none => (.notFound, st, [])
  | _, _, _ => (.missingData, st, [])

/-- The `/remove_reaction` route: requires truthy message_id / username; looks
the id up in the *Message* table first, falling back to `AudioMessage`; when
the user has a reaction on the record, deletes it and broadcasts; when the
user has none, the source's local variable `room` is never assigned, so the
later `if room:` raises `UnboundLocalError` and the request dies with an
unhandled 500 (modelled as `.crash`, state unchanged). -/
def remove_reaction (st : ServerState) (message_id? : Option Nat)
    (username? : Option String) : ReactResult × ServerState × List Event :=
  match message_id?, username? with
  | some mid, some username =>
    if mid == 0 || username == "" then (.missingData, st, [])
    else
      match st.messages.find? (fun m => m.id == mid) with
      | some m =>
        if m.reactions.any (fun p => p.1 == username) then
          let reactions := eraseReaction username m.reactions
          let msgs' := updateFirst (fun x => x.id == mid)
            (fun x => { x with reactions := reactions }) st.messages
          let st' := { st with messages := msgs' }
          let room := if m.room == "" then m.room_id else m.room
          let ev := if room == "" then []
            else emitToRoom st room none (fun s => Event.message_reactions_updated s mid reactions)
          (.ok reactions, st', ev)
        else (.crash, st, [])
      | none =>
        match st.audio_messages.find? (fun a => a.id == mid) with
        | some a =>
          if a.reactions.any (fun p => p.1 == username) then
            let reactions := eraseReaction username a.reactions
            let audios' := updateFirst (fun x => x.id == mid)
              (fun x => { x with reactions := reactions }) st.audio_messages
            let st' := { st with audio_messages := audios' }
            let room := a.room
            let ev := if room == "" then []
              else emitToRoom st room none (fun s => Event.message_reactions_updated s mid reactions)
            (.ok reactions, st', ev)
          else (.crash, st, [])
        | none => (.notFound, st, [])
  | _, _ => (.missingData, st, [])

/-! ### Call signaling handlers -/

/-- The error notice `call_initiate` sends back to the initiator when data is
missing or the target is offline: emitted only if the initiator resolves to an
online sid. -/
def callErrorTo (st : ServerState) (from? : Option String) (msg : String) : List Event :=
  match from? with
  | some fromUser =>
    match get_user_sid fromUser st.online_users with
    | some isid => [Event.call_error isid msg]
    | none => []
  | none => []

/-- The `call_initiate` socket handler: requires all of target / call_type /
from / room truthy (else a best-effort `call_error` to the initiator);
resolves the target and either sends `call_offer` to the target's sid only, or
a `call_error` back to the initiator. -/
def on_call_initiate (st : ServerState)
    (target? call_type? from? room? : Option String) : List Event :=
  if !(pyTruthy target? && pyTruthy call_type? && pyTruthy from? && pyTruthy room?) then
    callErrorTo st from? "Call initiation failed due to missing data."
  else
    match target?, call_type?, from?, room? with
    | some target, some call_type, some fromUser, some room_id =>
      match get_user_sid target st.online_users with
      | some target_sid => [Event.call_offer target_sid fromUser call_type room_id]
      | none => callErrorTo st from? ("User " ++ target ++ " is not online.")
    | _, _, _, _ => []

/-- The `signal` socket handler: drops malformed events (missing room /
payload / sender); with a truthy `target` inside the payload relays only to
that user's resolved sid (nothing when offline); otherwise broadcasts to every
other member of the room (`include_self=False` excludes the requesting sid). -/
def on_signal (st : ServerState) (reqSid : String) (room? : Option String)
    (signal? : Option SignalPayload) (sender? : Option String) : List Event :=
  match room?, signal?, sender? with
  | some room, some sig, some sender =>
    if room == "" || sender == "" then []
    else
      match sig.target with
      | some target =>
        if target == "" then
          emitToRoom st room (some reqSid) (fun s => Event.signal s sender sig)
        else
          match get_user_sid target st.online_users with
          | some target_sid => [Event.signal target_sid sender sig]
          | none => []
      | none =>
        emitToRoom st room (some reqSid) (fun s => Event.signal s sender sig)
  | _, _, _ => []

/-- The `join` socket handler: adds the sid to the room's membership (socketio
`join_room` is idempotent), resets the user's unread row for the room when one
exists, and answers the caller with the resolved peer. -/
def on_join (st : ServerState) (reqSid : String) (room? username? : Option String) :
    ServerState × List Event :=
  match room?, username? with
  | some room, some username =>
    let members :=
      if st.room_members.contains (reqSid, room) then st.room_members
      else st.room_members ++ [(reqSid, room)]
    let unread' := resetUnread username room st.unread
    let st' := { st with room_members := members, unread := unread' }
    if room == "" || username == "" then (st', [])
    else
      let users := splitRoom room
      let peer := if users.length == 2 then
          match users.filter (fun u => !(u == username)) with
          | p :: _ => p
          | [] => ""
        else ""
      (st', [Event.room_joined reqSid room peer])
  | _, _ => (st, [])

/-! ### Operation sequences (for temporal properties) -/

/-- The operations quantified over by the status-monotonicity property. -/
inductive Op
  | sendChat (room message sender : Option String)
  | audioMsg (room sender blob : String)
  | register (sid : String) (username : Option String) (token : Option Token)
  | markSeen (ids : List Nat) (current_user room : Option String)
deriving Repr

/-- Apply one operation to the server state, discarding results and events. -/
def applyOp (st : ServerState) : Op → ServerState
  | .sendChat room message sender => (on_send_chat_message st room message sender none none none).1
  | .audioMsg room sender blob => (on_audio_message st room sender blob).1
  | .register sid username token => (on_register st sid username token).2.1
  | .markSeen ids cu room => (mark_seen st ids cu room).1

/-- Apply a sequence of operations left to right. -/
def applyOps (st : ServerState) (ops : List Op) : ServerState :=
  ops.foldl applyOp st

/-- The stored status of the text message with primary key `id`. -/
def statusText (id : Nat) (st : ServerState) : Option Status :=
  (st.messages.find? (fun m => m.id == id)).map (fun m => m.status)

/-- The stored status of the audio message with primary key `id`. -/
def statusAudio (id : Nat) (st : ServerState) : Option Status :=
  (st.audio_messages.find? (fun m => m.id == id)).map (fun m => m.status)

/-- A text-table row for id `mid` can no longer be flipped by `mark_seen` for
viewer `cu`: it is absent, authored by the viewer, or already seen. -/
def textSettled (cu : String) (mid : Nat) (msgs : List MessageRow) : Prop :=
  ∀ m, msgs.find? (fun r => r.id == mid) = some m → m.sender = cu ∨ m.status = .seen

/-- Audio-table analogue of `textSettled`. -/
def audioSettled (cu : String) (mid : Nat) (l : List AudioRow) : Prop :=
  ∀ m, l.find? (fun r => r.id == mid) = some m → m.sender = cu ∨ m.status = .seen

/-- Forward simulation on the text table: every id present before is present
after, with the same sender and a status at least as far along
sent → delivered → seen. -/
def TextMono (l l' : List MessageRow) : Prop :=
  ∀ id m, l.find? (fun r => r.id == id) = some m →
    ∃ m', l'.find? (fun r => r.id == id) = some m' ∧
      m'.sender = m.sender ∧ m.status.rank ≤ m'.status.rank

/-- Audio-table analogue of `TextMono`. -/
def AudioMono (l l' : List AudioRow) : Prop :=
  ∀ id m, l.find? (fun r => r.id == id) = some m →
    ∃ m', l'.find? (fun r => r.id == id) = some m' ∧
      m'.sender = m.sender ∧ m.status.rank ≤ m'.status.rank

/-! ### Concrete example states (used by witnesses and counterexamples) -/

/-- Text message row with the optional columns left empty. -/
def mkMsg (id : Nat) (room sender content : String) (status : Status)
    (reactions : List (String × String)) : MessageRow :=
  { id := id, room := room, room_id := "", sender := sender, content := content,
    reply_to_message_id := none, reply_content := none, reply_sender := none,
    status := status, reactions := reactions }

/-- Audio message row. -/
def mkAudio (id : Nat) (room sender : String) (status : Status)
    (reactions : List (String × String)) : AudioRow :=
  { id := id, room := room, sender := sender, audio_data := "data",
    status := status, reactions := reactions }

/-- A freshly started server: empty registry, tables and rooms. -/
def emptyState : ServerState :=
  { online_users := [], active_tokens := [], messages := [], audio_messages := [],
    unread := [], room_members := [], next_msg_id := 1, next_audio_id := 1 }

/-- A token issued to "bob". -/
def tok1 : Token := { jti := "tok-1", sub := "bob" }

def stC1 : ServerState :=
  { emptyState with online_users := [("s0", "alice")], active_tokens := [tok1] }

def stC2 : ServerState :=
  { emptyState with online_users := [("sb", "bob")] }

def stC3 : ServerState :=
  { emptyState with
    active_tokens := [tok1],
    messages := [mkMsg 1 "alice-bob" "bob" "hi" .sent []], next_msg_id := 2 }

def opsC3 : List Op :=
  [Op.register "sa" (some "alice") (some tok1),
   Op.markSeen [1] (some "alice") (some "alice-bob")]

def stC4 : ServerState :=
  { emptyState with
    online_users := [("sb", "bob")],
    messages := [mkMsg 1 "alice-bob" "bob" "hi" .sent []], next_msg_id := 2 }

def stC5 : ServerState :=
  { emptyState with
    online_users := [("sb", "bob")],
    messages := [mkMsg 1 "alice-bob" "bob" "hi" .seen []],
    unread := [⟨"alice", "alice-bob", 3⟩], next_msg_id := 2 }

def stC5b : ServerState :=
  { emptyState with
    messages := [mkMsg 1 "alice-bob" "bob" "hi" .sent []],
    unread := [⟨"alice", "alice-bob", 2⟩], next_msg_id := 2 }

def stC6 : ServerState :=
  { emptyState with messages := [mkMsg 1 "alice-bob" "bob" "hi" .sent []], next_msg_id := 2 }

def stC7 : ServerState :=
  { emptyState with
    messages := [mkMsg 1 "a-b" "a" "x" .sent [("u", "x")]],
    audio_messages := [mkAudio 1 "a-b" "a" .sent []],
    next_msg_id := 2, next_audio_id := 2 }

def stC7b : ServerState :=
  { emptyState with audio_messages := [mkAudio 1 "a-b" "a" .sent []], next_audio_id := 2 }

def stC8 : ServerState :=
  { emptyState with online_users := [("sb", "bob")] }

def stC9 : ServerState :=
  { emptyState with
    online_users := [("sa", "alice"), ("sb", "bob"), ("sc", "carol")],
    room_members := [("sa", "r"), ("sb", "r"), ("sc", "other")] }

def sigC9 : SignalPayload := { target := none, body := "sdp" }

def stC10 : ServerState :=
  { emptyState with online_users := [("s0", "alice")], active_tokens := [tok1] }

/-! ### Generic list lemmas -/

theorem find?_eq_some_of_filter_singleton {α : Type} (p : α → Bool) (l : List α) (x : α)
    (h : l.filter p = [x]) : l.find? p = some x := by
  induction l with
  | nil => simp at h
  | cons a rest ih =>
    by_cases hpa : p a
    · rw [List.filter_cons_of_pos hpa] at h
      rw [List.find?_cons_of_pos _ hpa]
      exact congrArg some (List.cons_eq_cons.mp h).1
    · rw [List.filter_cons_of_neg hpa] at h
      rw [List.find?_cons_of_neg _ hpa]
      exact ih h

theorem find?_append_of_some {α : Type} (p : α → Bool) (l₁ l₂ : List α) (x : α)
    (h : l₁.find? p = some x) : (l₁ ++ l₂).find? p = some x := by
  induction l₁ with
  | nil => simp [List.find?] at h
  | cons a rest ih =>
    by_cases hpa : p a
    · rw [List.find?_cons_of_pos _ hpa] at h
      rw [List.cons_append, List.find?_cons_of_pos _ hpa]
      exact h
    · rw [List.find?_cons_of_neg _ hpa] at h
      rw [List.cons_append, List.find?_cons_of_neg _ hpa]
      exact ih h

theorem find?_append_of_none {α : Type} (p : α → Bool) (l₁ l₂ : List α)
    (h : l₁.find? p = none) : (l₁ ++ l₂).find? p = l₂.find? p := by
  induction l₁ with
  | nil => simp
  | cons a rest ih =>
    by_cases hpa : p a
    · rw [List.find?_cons_of_pos _ hpa] at h
      exact absurd h (by simp)
    · rw [List.find?_cons_of_neg _ hpa] at h
      rw [List.cons_append, List.find?_cons_of_neg _ hpa]
      exact ih h

theorem find?_map_pres {α : Type} (p : α → Bool) (f : α → α) (l : List α)
    (hf : ∀ a, p (f a) = p a) : (l.map f).find? p = (l.find? p).map f := by
  induction l with
  | nil => simp
  | cons a rest ih =>
    by_cases hpa : p a
    · rw [List.map_cons, List.find?_cons_of_pos _ (by rw [hf]; exact hpa),
        List.find?_cons_of_pos _ hpa]
      rfl
    · rw [List.map_cons, List.find?_cons_of_neg _ (by rw [hf]; exact hpa),
        List.find?_cons_of_neg _ hpa]
      exact ih

theorem find?_updateFirst_self {α : Type} (p : α → Bool) (f : α → α) (l : List α)
    (hf : ∀ a, p (f a) = p a) : (updateFirst p f l).find? p = (l.find? p).map f := by
  induction l with
  | nil => simp [updateFirst]
  | cons a rest ih =>
    by_cases hpa : p a
    · rw [updateFirst, if_pos hpa, List.find?_cons_of_pos _ (by rw [hf]; exact hpa),
        List.find?_cons_of_pos _ hpa]
      rfl
    · rw [updateFirst, if_neg hpa, List.find?_cons_of_neg _ hpa,
        List.find?_cons_of_neg _ hpa]
      exact ih

theorem find?_updateFirst_none {α : Type} (p q : α → Bool) (f : α → α) (l : List α)
    (hf : ∀ a, p (f a) = p a) (h : l.find? p = none) :
    (updateFirst q f l).find? p = none := by
  induction l with
  | nil => simp [updateFirst]
  | cons a rest ih =>
    by_cases hpa : p a
    · rw [List.find?_cons_of_pos _ hpa] at h
      exact absurd h (by simp)
    · rw [List.find?_cons_of_neg _ hpa] at h
      by_cases hqa : q a
      · rw [updateFirst, if_pos hqa, List.find?_cons_of_neg _ (by rw [hf]; exact hpa)]
        exact h
      · rw [updateFirst, if_neg hqa, List.find?_cons_of_neg _ hpa]
        exact ih h

theorem find?_updateFirst_cases {α : Type} (p q : α → Bool) (f : α → α) (l : List α) (m : α)
    (hf : ∀ a, p (f a) = p a) (h : l.find? p = some m) :
    (updateFirst q f l).find? p = some m ∨ (updateFirst q f l).find? p = some (f m) := by
  induction l with
  | nil => simp [List.find?] at h
  | cons a rest ih =>
    by_cases hqa : q a
    · by_cases hpa : p a
      · rw [List.find?_cons_of_pos _ hpa] at h
        right
        rw [updateFirst, if_pos hqa, List.find?_cons_of_pos _ (by rw [hf]; exact hpa)]
        exact congrArg (fun x => some (f x)) (Option.some.inj h)
      · rw [List.find?_cons_of_neg _ hpa] at h
        left
        rw [updateFirst, if_pos hqa, List.find?_cons_of_neg _ (by rw [hf]; exact hpa)]
        exact h
    · by_cases hpa : p a
      · rw [List.find?_cons_of_pos _ hpa] at h
        left
        rw [updateFirst, if_neg hqa, List.find?_cons_of_pos _ hpa]
        exact h
      · rw [List.find?_cons_of_neg _ hpa] at h
        rw [updateFirst, if_neg hqa, List.find?_cons_of_neg _ hpa]
        exact ih h

/-! ### Presence registry lemmas (claim C1) -/

theorem dictInsert_filter_value (sid username : String) (d : List (String × String))
    (hnd : (d.map Prod.fst).Nodup)
    (hval : ∀ p ∈ d, p.2 = username → p.1 = sid) :
    (dictInsert sid username d).filter (fun p => p.2 == username) = [(sid, username)] := by
  rw [dictInsert]
  by_cases hany : d.any (fun p => p.1 == sid)
  · rw [if_pos hany]
    induction d with
    | nil => simp at hany
    | cons a rest ih =>
      rw [List.map_cons, List.nodup_cons] at hnd
      have hvalr : ∀ p ∈ rest, p.2 = username → p.1 = sid :=
        fun p hp => hval p (List.mem_cons_of_mem a hp)
      by_cases hka : a.1 = sid
      · have hmapr : rest.map (fun p => if p.1 == sid then (sid, username) else p) = rest := by
          conv_rhs => rw [← List.map_id rest]
          apply List.map_congr_left
          intro q hq
          have hq1 : q.1 ≠ sid := by
            intro hcontra
            exact hnd.1 (hka ▸ hcontra ▸ List.mem_map_of_mem Prod.fst hq)
          simp [hq1]
        have hfr : rest.filter (fun p => p.2 == username) = [] := by
          rw [List.filter_eq_nil_iff]
          intro q hq hq2
          have hq1 : q.1 ≠ sid := by
            intro hcontra
            exact hnd.1 (hka ▸ hcontra ▸ List.mem_map_of_mem Prod.fst hq)
          exact hq1 (hvalr q hq (by simpa using hq2))
        simp only [List.map_cons, hmapr]
        simp [List.filter_cons, hka, hfr]
      · have ha2 : a.2 ≠ username := fun hcontra => hka (hval a (List.mem_cons_self a rest) hcontra)
        have hanyr : rest.any (fun p => p.1 == sid) = true := by
          rcases List.any_eq_true.mp hany with ⟨q, hq, hqk⟩
          rcases List.mem_cons.mp hq with rfl | hq'
          · exact absurd (by simpa using hqk) hka
          · exact List.any_eq_true.mpr ⟨q, hq', hqk⟩
        have hrec := ih hnd.2 hvalr hanyr
        have hfa : (fun p => if p.1 == sid then (sid, username) else p) a = a := by
          simp [hka]
        simp only [List.map_cons, hfa]
        rw [List.filter_cons, if_neg (by simp [ha2])]
        exact hrec
  · rw [if_neg hany]
    have hfd : d.filter (fun p => p.2 == username) = [] := by
      rw [List.filter_eq_nil_iff]
      intro q hq hq2
      apply hany
      exact List.any_eq_true.mpr ⟨q, hq, by simp [hval q hq (by simpa using hq2)]⟩
    rw [List.filter_append, hfd]
    simp

theorem dictInsert_keys_nodup (k v : String) (d : List (String × String))
    (hnd : (d.map Prod.fst).Nodup) : ((dictInsert k v d).map Prod.fst).Nodup := by
  rw [dictInsert]
  by_cases hany : d.any (fun p => p.1 == k)
  · rw [if_pos hany]
    have hkeys : (d.map (fun p => if p.1 == k then (k, v) else p)).map Prod.fst
        = d.map Prod.fst := by
      rw [List.map_map]
      apply List.map_congr_left
      intro a _
      by_cases h : a.1 = k
      · simp [h]
      · simp [h]
    rw [hkeys]
    exact hnd
  · rw [if_neg hany]
    rw [List.map_append]
    have hk : k ∉ d.map Prod.fst := by
      intro hmem
      rcases List.mem_map.mp hmem with ⟨p, hp, hpk⟩
      exact hany (List.any_eq_true.mpr ⟨p, hp, by simp [hpk]⟩)
    simp [List.nodup_append, hnd, hk]

theorem cleaned_keys_nodup (sid username : String) (d : List (String × String))
    (hnd : (d.map Prod.fst).Nodup) :
    ((cleanedRegistry sid username d).map Prod.fst).Nodup :=
  hnd.sublist ((List.filter_sublist d).map Prod.fst)

theorem cleaned_value_key (sid username : String) (d : List (String × String)) :
    ∀ p ∈ cleanedRegistry sid username d, p.2 = username → p.1 = sid := by
  intro p hp hval
  have hb := (List.mem_filter.mp hp).2
  simp [hval] at hb
  exact hb

theorem on_register_success_eq (st : ServerState) (sid username : String) (token : Token)
    (hu : username ≠ "") (ht : token ∈ st.active_tokens) :
    on_register st sid (some username) (some token) =
      (true,
       (update_delivery_status_for_user (registeredState st sid username) username).1,
       (update_delivery_status_for_user (registeredState st sid username) username).2
         ++ [Event.user_list_broadcast]) := by
  simp only [on_register]
  rw [if_neg (by simp [hu]), if_neg (by simp [ht])]

theorem registeredState_online_users (st : ServerState) (sid username : String) :
    (registeredState st sid username).online_users =
      dictInsert sid username (cleanedRegistry sid username st.online_users) := rfl

theorem update_delivery_online_users (st : ServerState) (username : String) :
    (update_delivery_status_for_user st username).1.online_users = st.online_users := rfl

theorem C1_last_registration_wins (st : ServerState) (sid username : String) (token : Token)
    (hnd : (st.online_users.map Prod.fst).Nodup)
    (hu : username ≠ "") (ht : token ∈ st.active_tokens) :
    (on_register st sid (some username) (some token)).1 = true ∧
    ((on_register st sid (some username) (some token)).2.1.online_users.filter
        (fun p => p.2 == username)) = [(sid, username)] ∧
    get_user_sid username (on_register st sid (some username) (some token)).2.1.online_users
      = some sid ∧
    ((on_register st sid (some username) (some token)).2.1.online_users.map Prod.fst).Nodup := by
  rw [on_register_success_eq st sid username token hu ht]
  simp only [update_delivery_online_users, registeredState_online_users]
  have hfil := dictInsert_filter_value sid username
    (cleanedRegistry sid username st.online_users)
    (cleaned_keys_nodup sid username st.online_users hnd)
    (cleaned_value_key sid username st.online_users)
  refine ⟨by trivial, hfil, ?_, ?_⟩
  · rw [get_user_sid, find?_eq_some_of_filter_singleton _ _ _ hfil]
    rfl
  · exact dictInsert_keys_nodup sid username _
      (cleaned_keys_nodup sid username st.online_users hnd)

/-- Witness for C1: re-registering "alice" from connection "s1" over the stale
entry ("s0","alice"). -/
theorem C1_last_registration_wins_witness :
    (on_register stC1 "s1" (some "alice") (some tok1)).1 = true ∧
    ((on_register stC1 "s1" (some "alice") (some tok1)).2.1.online_users.filter
        (fun p => p.2 == "alice")) = [("s1", "alice")] ∧
    get_user_sid "alice" (on_register stC1 "s1" (some "alice") (some tok1)).2.1.online_users
      = some "s1" ∧
    ((on_register stC1 "s1" (some "alice") (some tok1)).2.1.online_users.map Prod.fst).Nodup :=
  C1_last_registration_wins stC1 "s1" "alice" tok1 (by decide) (by decide) (by decide)

/-! ### Claim C10: register never checks the token's embedded identity -/

theorem mem_dictInsert_self (k v : String) (d : List (String × String)) :
    (k, v) ∈ dictInsert k v d := by
  rw [dictInsert]
  by_cases hany : d.any (fun p => p.1 == k)
  · rw [if_pos hany]
    rcases List.any_eq_true.mp hany with ⟨p, hp, hpk⟩
    refine List.mem_map.mpr ⟨p, hp, ?_⟩
    simp [hpk]
  · rw [if_neg hany]
    simp

/-- C10: `register` binds the connection to the *claimed* username whenever
the supplied token is merely a member of `active_tokens`: it returns True and
installs sid ↦ u even when the token's embedded identity (`sub`, checked only
by the separate `authenticate` handler) belongs to a different user. -/
theorem C10_register_ignores_token_identity (st : ServerState) (sid u : String) (t : Token)
    (hu : u ≠ "") (ht : t ∈ st.active_tokens) (_hdiff : t.sub ≠ u) :
    (on_register st sid (some u) (some t)).1 = true ∧
    (sid, u) ∈ (on_register st sid (some u) (some t)).2.1.online_users := by
  rw [on_register_success_eq st sid u t hu ht]
  simp only [update_delivery_online_users, registeredState_online_users]
  exact ⟨by trivial, mem_dictInsert_self sid u _⟩

/-- Witness for C10: tok1 was issued to "bob" yet registers "carol". -/
theorem C10_register_ignores_token_identity_witness :
    (on_register stC10 "s1" (some "carol") (some tok1)).1 = true ∧
    ("s1", "carol") ∈ (on_register stC10 "s1" (some "carol") (some tok1)).2.1.online_users :=
  C10_register_ignores_token_identity stC10 "s1" "carol" tok1
    (by decide) (by decide) (by decide)

/-! ### Claim C8: call initiation routing -/

/-- C8: with all four fields present, `call_initiate` to an offline target
emits exactly one `call_error` to the initiator's connection (nothing when the
initiator is offline too) and no `call_offer` to anyone; to an online target
it emits exactly one `call_offer` — carrying from, call_type and room — to the
target's connection only. -/
theorem C8_call_initiate_routing (st : ServerState) (target ct fu rm : String)
    (htg : target ≠ "") (hct : ct ≠ "") (hfu : fu ≠ "") (hrm : rm ≠ "") :
    (get_user_sid target st.online_users = none →
      ((∀ isid, get_user_sid fu st.online_users = some isid →
          on_call_initiate st (some target) (some ct) (some fu) (some rm)
            = [Event.call_error isid ("User " ++ target ++ " is not online.")]) ∧
       (get_user_sid fu st.online_users = none →
          on_call_initiate st (some target) (some ct) (some fu) (some rm) = []) ∧
       (∀ sid f c r, Event.call_offer sid f c r ∉
          on_call_initiate st (some target) (some ct) (some fu) (some rm)))) ∧
    (∀ tsid, get_user_sid target st.online_users = some tsid →
      on_call_initiate st (some target) (some ct) (some fu) (some rm)
        = [Event.call_offer tsid fu ct rm]) := by
  have hev : on_call_initiate st (some target) (some ct) (some fu) (some rm) =
      (match get_user_sid target st.online_users with
       | some target_sid => [Event.call_offer target_sid fu ct rm]
       | none => callErrorTo st (some fu) ("User " ++ target ++ " is not online.")) := by
    rw [on_call_initiate, if_neg (by simp [pyTruthy, htg, hct, hfu, hrm])]
  constructor
  · intro hoff
    have hoff_ev : on_call_initiate st (some target) (some ct) (some fu) (some rm)
        = callErrorTo st (some fu) ("User " ++ target ++ " is not online.") := by
      rw [hev, hoff]
    refine ⟨?_, ?_, ?_⟩
    · intro isid hisid
      rw [hoff_ev]
      simp only [callErrorTo]
      rw [hisid]
    · intro hnone
      rw [hoff_ev]
      simp only [callErrorTo]
      rw [hnone]
    · intro sid f c r hmem
      rw [hoff_ev] at hmem
      simp only [callErrorTo] at hmem
      rcases hq : get_user_sid fu st.online_users with _ | isid
      · rw [hq] at hmem
        simp at hmem
      · rw [hq] at hmem
        simp at hmem
  · intro tsid htsid
    rw [hev, htsid]

/-- Witness for C8: offline target "carol" yields only a `call_error` to bob;
online target "bob" yields only a `call_offer` to bob's connection. -/
theorem C8_call_initiate_routing_witness :
    on_call_initiate stC8 (some "carol") (some "video") (some "bob") (some "bob-carol")
      = [Event.call_error "sb" "User carol is not online."] ∧
    on_call_initiate stC8 (some "bob") (some "video") (some "carol") (some "bob-carol")
      = [Event.call_offer "sb" "carol" "video" "bob-carol"] := by
  constructor
  · exact ((C8_call_initiate_routing stC8 "carol" "video" "bob" "bob-carol"
      (by decide) (by decide) (by decide) (by decide)).1 (by decide)).1 "sb" (by decide)
  · exact (C8_call_initiate_routing stC8 "bob" "video" "carol" "bob-carol"
      (by decide) (by decide) (by decide) (by decide)).2 "sb" (by decide)

/-! ### Claim C9: signal routing -/

/-- C9: a well-formed `signal` with a named target is relayed only to that
user's resolved connection (to nobody when offline); with no target it
reaches exactly the room's members other than the requesting connection; and
an event missing room, payload or sender emits nothing. -/
theorem C9_signal_routing (st : ServerState) (reqSid room sender : String)
    (sig : SignalPayload) (hroom : room ≠ "") (hsender : sender ≠ "") :
    ((∀ t, sig.target = some t → t ≠ "" →
        ((∀ tsid, get_user_sid t st.online_users = some tsid →
            on_signal st reqSid (some room) (some sig) (some sender)
              = [Event.signal tsid sender sig]) ∧
         (get_user_sid t st.online_users = none →
            on_signal st reqSid (some room) (some sig) (some sender) = []))) ∧
     (sig.target = none →
        ∀ s, Event.signal s sender sig ∈ on_signal st reqSid (some room) (some sig) (some sender)
          ↔ ((s, room) ∈ st.room_members ∧ s ≠ reqSid))) ∧
    (∀ sig? sender?, on_signal st reqSid none sig? sender? = []) ∧
    (∀ sender?, on_signal st reqSid (some room) none sender? = []) ∧
    (∀ sig?, on_signal st reqSid (some room) sig? none = []) := by
  have hev : on_signal st reqSid (some room) (some sig) (some sender) =
      (match sig.target with
       | some target =>
         if target == "" then
           emitToRoom st room (some reqSid) (fun s => Event.signal s sender sig)
         else
           match get_user_sid target st.online_users with
           | some target_sid => [Event.signal target_sid sender sig]
           | none => []
       | none => emitToRoom st room (some reqSid) (fun s => Event.signal s sender sig)) := by
    simp only [on_signal]
    rw [if_neg (by simp [hroom, hsender])]
  have hbroadcast : ∀ s,
      Event.signal s sender sig ∈ emitToRoom st room (some reqSid)
        (fun x => Event.signal x sender sig)
      ↔ ((s, room) ∈ st.room_members ∧ s ≠ reqSid) := by
    intro s
    simp only [emitToRoom, roomSids, List.mem_filterMap]
    constructor
    · rintro ⟨x, ⟨p, hp, hpx⟩, hfx⟩
      by_cases hpr : (p.2 == room) = true
      · rw [if_pos hpr] at hpx
        by_cases hxs : (some reqSid == some x) = true
        · rw [if_pos hxs] at hfx
          exact absurd hfx (by simp)
        · rw [if_neg hxs] at hfx
          have hx1 : x = s := by simpa using hfx
          have hp1 : p.1 = x := by simpa using hpx
          have hpeq : p = (s, room) := by
            rcases p with ⟨a, b⟩
            simp only [Prod.mk.injEq]
            exact ⟨hx1 ▸ hp1, by simpa using hpr⟩
          refine ⟨hpeq ▸ hp, ?_⟩
          intro hcontra
          exact hxs (by simp [hx1, hcontra])
      · rw [if_neg hpr] at hpx
        exact absurd hpx (by simp)
    · rintro ⟨hmem, hne⟩
      refine ⟨s, ⟨(s, room), hmem, by simp⟩, ?_⟩
      rw [if_neg (by simp [Ne.symm hne])]
  refine ⟨⟨?_, ?_⟩, ?_, ?_, ?_⟩
  · intro t ht htne
    have hev' : on_signal st reqSid (some room) (some sig) (some sender) =
        (match get_user_sid t st.online_users with
         | some target_sid => [Event.signal target_sid sender sig]
         | none => []) := by
      rw [hev, ht]
      exact if_neg (by simp [htne])
    constructor
    · intro tsid htsid
      rw [hev', htsid]
    · intro hnone
      rw [hev', hnone]
  · intro hnone s
    rw [hev, hnone]
    exact hbroadcast s
  · intro sig? sender?
    cases sig? <;> cases sender? <;> rfl
  · intro sender?
    cases sender? <;> rfl
  · intro sig?
    cases sig? <;> rfl

/-- Witness for C9: a target-less signal in room "r" reaches exactly the other
member; a missing payload emits nothing. -/
theorem C9_signal_routing_witness :
    (Event.signal "sb" "alice" sigC9 ∈ on_signal stC9 "sa" (some "r") (some sigC9) (some "alice")
      ↔ (("sb", "r") ∈ stC9.room_members ∧ "sb" ≠ "sa")) ∧
    on_signal stC9 "sa" (some "r") none (some "alice") = [] := by
  constructor
  · exact ((C9_signal_routing stC9 "sa" "r" "alice" sigC9
      (by decide) (by decide)).1.2 (by decide) "sb")
  · exact ((C9_signal_routing stC9 "sa" "r" "alice" sigC9
      (by decide) (by decide)).2.2.1 (some "alice"))

/-! ### Claim C2: send to an offline recipient -/

theorem on_send_chat_offline_alice (st : ServerState) (msg : String) (hmsg : msg ≠ "")
    (hoff : get_user_sid "alice" st.online_users = none) :
    (on_send_chat_message st (some "alice-bob") (some msg) (some "bob") none none none).1
      = { st with
          messages := st.messages ++ [mkMsg st.next_msg_id "alice-bob" "bob" msg .sent []],
          next_msg_id := st.next_msg_id + 1 } := by
  have hsplit : splitRoom "alice-bob" = ["alice", "bob"] := by decide
  simp only [on_send_chat_message]
  rw [if_neg (by simp [hmsg])]
  simp only [hsplit]
  simp [hoff, mkMsg]

/-- C2 counterexample: bob sends to room "alice-bob" while alice is offline —
the unread count for (alice, "alice-bob") is 0 afterwards, not 1 as the claim
states (the handler increments unread rows only for online recipients); the
status does stay `sent`. -/
theorem C2_counterexample :
    unreadCount "alice" "alice-bob"
      (on_send_chat_message stC2 (some "alice-bob") (some "hi") (some "bob")
        none none none).1.unread ≠ 1 ∧
    statusText 1
      (on_send_chat_message stC2 (some "alice-bob") (some "hi") (some "bob")
        none none none).1 = some .sent := by
  decide

/-- C2 (amended): bob sends to "alice-bob" while alice has no presence entry —
the persisted message's status stays `sent` and the unread store is untouched,
so the count for (alice, "alice-bob") stays whatever it was (0 when no row
existed), because unread rows are only bumped for recipients online at send
time. -/
theorem C2_amended_offline_send (st : ServerState) (msg : String) (hmsg : msg ≠ "")
    (hoff : get_user_sid "alice" st.online_users = none)
    (hfresh : statusText st.next_msg_id st = none) :
    statusText st.next_msg_id
      (on_send_chat_message st (some "alice-bob") (some msg) (some "bob") none none none).1
      = some .sent ∧
    (on_send_chat_message st (some "alice-bob") (some msg) (some "bob") none none none).1.unread
      = st.unread := by
  rw [on_send_chat_offline_alice st msg hmsg hoff]
  have hfind : st.messages.find? (fun m => m.id == st.next_msg_id) = none := by
    rw [statusText] at hfresh
    exact Option.map_eq_none.mp hfresh
  constructor
  · rw [statusText]
    simp only []
    rw [find?_append_of_none _ _ _ hfind]
    simp [mkMsg]
  · rfl

/-- Witness for the amended C2 at the concrete two-user state. -/
theorem C2_amended_offline_send_witness :
    statusText 1
      (on_send_chat_message stC2 (some "alice-bob") (some "x") (some "bob") none none none).1
      = some .sent ∧
    (on_send_chat_message stC2 (some "alice-bob") (some "x") (some "bob") none none none).1.unread
      = stC2.unread :=
  C2_amended_offline_send stC2 "x" (by decide) (by decide) (by decide)

/-! ### `mark_seen` result lemmas (claims C4, C5) -/

theorem unreadCount_resetUnread (u r : String) (l : List UnreadRow) :
    unreadCount u r (resetUnread u r l) = 0 := by
  rw [unreadCount, resetUnread,
    find?_updateFirst_self (fun x => x.username == u && x.room == r)
      (fun x => { x with count := 0 }) l (fun a => rfl)]
  cases l.find? (fun x => x.username == u && x.room == r) <;> simp

theorem mark_seen_result_empty (st : ServerState) (ids : List Nat) (cu : String)
    (room? : Option String) (hids : ids ≠ []) (hcu : cu ≠ "")
    (msgs' : List MessageRow) (audios' : List AudioRow)
    (hcore : mark_seen_core cu ids st.messages st.audio_messages = (msgs', audios', [])) :
    mark_seen st ids (some cu) room?
      = ({ st with messages := msgs', audio_messages := audios' }, []) := by
  simp only [mark_seen]
  rw [if_neg (by simp [hids, hcu])]
  simp only [hcore]
  rfl

theorem mark_seen_result_nonempty (st : ServerState) (ids : List Nat) (cu : String)
    (room? : Option String) (hids : ids ≠ []) (hcu : cu ≠ "")
    (msgs' : List MessageRow) (audios' : List AudioRow) (upds : List SeenUpd)
    (hcore : mark_seen_core cu ids st.messages st.audio_messages = (msgs', audios', upds))
    (hupds : upds ≠ []) :
    (mark_seen st ids (some cu) room?).1.messages = msgs' ∧
    (mark_seen st ids (some cu) room?).1.audio_messages = audios' ∧
    (mark_seen st ids (some cu) room?).1.unread
      = (match room? with
         | some room => if room == "" then st.unread else resetUnread cu room st.unread
         | none => st.unread) ∧
    (mark_seen st ids (some cu) room?).2 = seenNotifications st upds cu room? := by
  simp only [mark_seen]
  rw [if_neg (by simp [hids, hcu])]
  simp only [hcore]
  rw [if_neg (by simp [hupds])]
  exact ⟨rfl, rfl, rfl, rfl⟩

/-- C5 counterexample: mark_seen on a message that is already `seen` (so no
row changes status) leaves the viewer's unread count at 3, not 0 — the reset
is nested inside the updated-messages branch. -/
theorem C5_counterexample :
    unreadCount "alice" "alice-bob"
      (mark_seen stC5 [1] (some "alice") (some "alice-bob")).1.unread ≠ 0 := by
  decide

/-- C5 (amended): the unread reset happens only when at least one referenced
message actually changed status to `seen`; in that case the viewer's count for
the room is 0 afterwards. -/
theorem C5_amended_reset_only_on_update (st : ServerState) (ids : List Nat) (cu room : String)
    (hids : ids ≠ []) (hcu : cu ≠ "") (hroom : room ≠ "")
    (hupd : (mark_seen_core cu ids st.messages st.audio_messages).2.2 ≠ []) :
    unreadCount cu room (mark_seen st ids (some cu) (some room)).1.unread = 0 := by
  rcases hcore : mark_seen_core cu ids st.messages st.audio_messages with ⟨msgs', audios', upds⟩
  have hupds : upds ≠ [] := by rw [hcore] at hupd; exact hupd
  have h := (mark_seen_result_nonempty st ids cu (some room) hids hcu
    msgs' audios' upds hcore hupds).2.2.1
  rw [h]
  show unreadCount cu room (if room == "" then st.unread else resetUnread cu room st.unread) = 0
  rw [if_neg (by simp [hroom])]
  exact unreadCount_resetUnread cu room st.unread

/-- Witness for the amended C5: one `sent` message flips to `seen`, so the
pre-existing count of 2 resets to 0. -/
theorem C5_amended_reset_only_on_update_witness :
    unreadCount "alice" "alice-bob"
      (mark_seen stC5b [1] (some "alice") (some "alice-bob")).1.unread = 0 :=
  C5_amended_reset_only_on_update stC5b [1] "alice" "alice-bob"
    (by decide) (by decide) (by decide) (by decide)

/-! ### Claim C6: remove_reaction on an absent entry -/

/-- C6 (code bug): `/remove_reaction` for a username with no reaction on an
existing message does not return success with the mapping unchanged — the
handler's local `room` is only assigned inside the `if username in reactions`
branch, so the trailing `if room:` raises UnboundLocalError and the request
fails with an unhandled 500 (state unchanged, nothing broadcast). -/
theorem C6_remove_reaction_absent_crashes :
    remove_reaction stC6 (some 1) (some "eve") = (.crash, stC6, []) := by
  decide

/-! ### Claim C4: mark_seen idempotence -/

theorem setSeenText_of_none (mid : Nat) (cu : String) (msgs : List MessageRow)
    (hfind : msgs.find? (fun m => m.id == mid) = none) :
    setSeenText mid cu msgs = (msgs, none) := by
  simp only [setSeenText, hfind]

theorem setSeenText_skip (mid : Nat) (cu : String) (msgs : List MessageRow) (m : MessageRow)
    (hfind : msgs.find? (fun m => m.id == mid) = some m)
    (hc : (!(m.sender == cu) && !(m.status == Status.seen)) = false) :
    setSeenText mid cu msgs = (msgs, none) := by
  simp only [setSeenText, hfind]
  rw [if_neg (by simp [hc])]

theorem setSeenText_update (mid : Nat) (cu : String) (msgs : List MessageRow) (m : MessageRow)
    (hfind : msgs.find? (fun m => m.id == mid) = some m)
    (hc : (!(m.sender == cu) && !(m.status == Status.seen)) = true) :
    setSeenText mid cu msgs =
      (updateFirst (fun x => x.id == mid) (fun x => { x with status := Status.seen }) msgs,
       some m.sender) := by
  simp only [setSeenText, hfind]
  rw [if_pos hc]

theorem setSeenAudio_of_none (mid : Nat) (cu : String) (l : List AudioRow)
    (hfind : l.find? (fun m => m.id == mid) = none) :
    setSeenAudio mid cu l = (l, none) := by
  simp only [setSeenAudio, hfind]

theorem setSeenAudio_skip (mid : Nat) (cu : String) (l : List AudioRow) (m : AudioRow)
    (hfind : l.find? (fun m => m.id == mid) = some m)
    (hc : (!(m.sender == cu) && !(m.status == Status.seen)) = false) :
    setSeenAudio mid cu l = (l, none) := by
  simp only [setSeenAudio, hfind]
  rw [if_neg (by simp [hc])]

theorem setSeenAudio_update (mid : Nat) (cu : String) (l : List AudioRow) (m : AudioRow)
    (hfind : l.find? (fun m => m.id == mid) = some m)
    (hc : (!(m.sender == cu) && !(m.status == Status.seen)) = true) :
    setSeenAudio mid cu l =
      (updateFirst (fun x => x.id == mid) (fun x => { x with status := Status.seen }) l,
       some m.sender) := by
  simp only [setSeenAudio, hfind]
  rw [if_pos hc]

theorem setSeenText_cases (mid : Nat) (cu : String) (msgs : List MessageRow) :
    (setSeenText mid cu msgs).1 = msgs ∨
    (setSeenText mid cu msgs).1
      = updateFirst (fun x => x.id == mid) (fun x => { x with status := Status.seen }) msgs := by
  cases hfind : msgs.find? (fun m => m.id == mid) with
  | none => left; rw [setSeenText_of_none mid cu msgs hfind]
  | some m =>
    by_cases hc : (!(m.sender == cu) && !(m.status == Status.seen)) = true
    · right; rw [setSeenText_update mid cu msgs m hfind hc]
    · left; rw [setSeenText_skip mid cu msgs m hfind (by simpa using hc)]

theorem setSeenAudio_cases (mid : Nat) (cu : String) (l : List AudioRow) :
    (setSeenAudio mid cu l).1 = l ∨
    (setSeenAudio mid cu l).1
      = updateFirst (fun x => x.id == mid) (fun x => { x with status := Status.seen }) l := by
  cases hfind : l.find? (fun m => m.id == mid) with
  | none => left; rw [setSeenAudio_of_none mid cu l hfind]
  | some m =>
    by_cases hc : (!(m.sender == cu) && !(m.status == Status.seen)) = true
    · right; rw [setSeenAudio_update mid cu l m hfind hc]
    · left; rw [setSeenAudio_skip mid cu l m hfind (by simpa using hc)]

theorem textSettled_updateFirst (cu : String) (mid mid' : Nat) (msgs : List MessageRow)
    (h : textSettled cu mid msgs) :
    textSettled cu mid
      (updateFirst (fun x => x.id == mid') (fun x => { x with status := Status.seen }) msgs) := by
  intro m' hm'
  cases hfind : msgs.find? (fun r => r.id == mid) with
  | none =>
    rw [find?_updateFirst_none (fun r => r.id == mid) (fun x => x.id == mid')
      (fun x => { x with status := Status.seen }) msgs (fun a => rfl) hfind] at hm'
    cases hm'
  | some m =>
    rcases find?_updateFirst_cases (fun r => r.id == mid) (fun x => x.id == mid')
      (fun x => { x with status := Status.seen }) msgs m (fun a => rfl) hfind with hcase | hcase
    · rw [hcase] at hm'
      rw [← Option.some.inj hm']
      exact h m hfind
    · rw [hcase] at hm'
      rw [← Option.some.inj hm']
      exact Or.inr rfl

theorem audioSettled_updateFirst (cu : String) (mid mid' : Nat) (l : List AudioRow)
    (h : audioSettled cu mid l) :
    audioSettled cu mid
      (updateFirst (fun x => x.id == mid') (fun x => { x with status := Status.seen }) l) := by
  intro m' hm'
  cases hfind : l.find? (fun r => r.id == mid) with
  | none =>
    rw [find?_updateFirst_none (fun r => r.id == mid) (fun x => x.id == mid')
      (fun x => { x with status := Status.seen }) l (fun a => rfl) hfind] at hm'
    cases hm'
  | some m =>
    rcases find?_updateFirst_cases (fun r => r.id == mid) (fun x => x.id == mid')
      (fun x => { x with status := Status.seen }) l m (fun a => rfl) hfind with hcase | hcase
    · rw [hcase] at hm'
      rw [← Option.some.inj hm']
      exact h m hfind
    · rw [hcase] at hm'
      rw [← Option.some.inj hm']
      exact Or.inr rfl

theorem textSettled_setSeen (cu cu' : String) (mid mid' : Nat) (msgs : List MessageRow)
    (h : textSettled cu mid msgs) :
    textSettled cu mid (setSeenText mid' cu' msgs).1 := by
  rcases setSeenText_cases mid' cu' msgs with hc | hc <;> rw [hc]
  · exact h
  · exact textSettled_updateFirst cu mid mid' msgs h

theorem audioSettled_setSeen (cu cu' : String) (mid mid' : Nat) (l : List AudioRow)
    (h : audioSettled cu mid l) :
    audioSettled cu mid (setSeenAudio mid' cu' l).1 := by
  rcases setSeenAudio_cases mid' cu' l with hc | hc <;> rw [hc]
  · exact h
  · exact audioSettled_updateFirst cu mid mid' l h

theorem setSeenText_settles (mid : Nat) (cu : String) (msgs : List MessageRow) :
    textSettled cu mid (setSeenText mid cu msgs).1 := by
  cases hfind : msgs.find? (fun m => m.id == mid) with
  | none =>
    rw [setSeenText_of_none mid cu msgs hfind]
    intro m' hm'
    rw [hfind] at hm'
    cases hm'
  | some m =>
    by_cases hc : (!(m.sender == cu) && !(m.status == Status.seen)) = true
    · rw [setSeenText_update mid cu msgs m hfind hc]
      intro m' hm'
      rw [find?_updateFirst_self (fun r => r.id == mid)
        (fun x => { x with status := Status.seen }) msgs (fun a => rfl), hfind] at hm'
      rw [← Option.some.inj hm']
      exact Or.inr rfl
    · rw [setSeenText_skip mid cu msgs m hfind (by simpa using hc)]
      intro m' hm'
      rw [hfind] at hm'
      rw [← Option.some.inj hm']
      have hc' := (by simpa using hc : ¬(¬m.sender = cu ∧ ¬m.status = Status.seen))
      rcases not_and_or.mp hc' with hs | hs
      · exact Or.inl (not_not.mp hs)
      · exact Or.inr (not_not.mp hs)

theorem setSeenAudio_settles (mid : Nat) (cu : String) (l : List AudioRow) :
    audioSettled cu mid (setSeenAudio mid cu l).1 := by
  cases hfind : l.find? (fun m => m.id == mid) with
  | none =>
    rw [setSeenAudio_of_none mid cu l hfind]
    intro m' hm'
    rw [hfind] at hm'
    cases hm'
  | some m =>
    by_cases hc : (!(m.sender == cu) && !(m.status == Status.seen)) = true
    · rw [setSeenAudio_update mid cu l m hfind hc]
      intro m' hm'
      rw [find?_updateFirst_self (fun r => r.id == mid)
        (fun x => { x with status := Status.seen }) l (fun a => rfl), hfind] at hm'
      rw [← Option.some.inj hm']
      exact Or.inr rfl
    · rw [setSeenAudio_skip mid cu l m hfind (by simpa using hc)]
      intro m' hm'
      rw [hfind] at hm'
      rw [← Option.some.inj hm']
      have hc' := (by simpa using hc : ¬(¬m.sender = cu ∧ ¬m.status = Status.seen))
      rcases not_and_or.mp hc' with hs | hs
      · exact Or.inl (not_not.mp hs)
      · exact Or.inr (not_not.mp hs)

theorem mark_seen_core_cons (cu : String) (mid : Nat) (rest : List Nat)
    (msgs : List MessageRow) (audios : List AudioRow) :
    (mark_seen_core cu (mid :: rest) msgs audios).1
      = (mark_seen_core cu rest (setSeenText mid cu msgs).1 (setSeenAudio mid cu audios).1).1 ∧
    (mark_seen_core cu (mid :: rest) msgs audios).2.1
      = (mark_seen_core cu rest (setSeenText mid cu msgs).1 (setSeenAudio mid cu audios).1).2.1 := by
  rcases h1 : setSeenText mid cu msgs with ⟨msgs1, s1⟩
  rcases h2 : setSeenAudio mid cu audios with ⟨audios1, s2⟩
  rcases h3 : mark_seen_core cu rest msgs1 audios1 with ⟨msgs2, audios2, upds⟩
  simp only [mark_seen_core, h1, h2, h3]
  exact ⟨trivial, trivial⟩

theorem mark_seen_core_preserves_text (cu : String) (mid : Nat) (ids : List Nat)
    (msgs : List MessageRow) (audios : List AudioRow) (h : textSettled cu mid msgs) :
    textSettled cu mid (mark_seen_core cu ids msgs audios).1 := by
  induction ids generalizing msgs audios with
  | nil => exact h
  | cons mid' rest ih =>
    rw [(mark_seen_core_cons cu mid' rest msgs audios).1]
    exact ih _ _ (textSettled_setSeen cu cu mid mid' msgs h)

theorem mark_seen_core_preserves_audio (cu : String) (mid : Nat) (ids : List Nat)
    (msgs : List MessageRow) (audios : List AudioRow) (h : audioSettled cu mid audios) :
    audioSettled cu mid (mark_seen_core cu ids msgs audios).2.1 := by
  induction ids generalizing msgs audios with
  | nil => exact h
  | cons mid' rest ih =>
    rw [(mark_seen_core_cons cu mid' rest msgs audios).2]
    exact ih _ _ (audioSettled_setSeen cu cu mid mid' audios h)

theorem mark_seen_core_settles (cu : String) (ids : List Nat)
    (msgs : List MessageRow) (audios : List AudioRow) :
    ∀ mid ∈ ids, textSettled cu mid (mark_seen_core cu ids msgs audios).1 ∧
      audioSettled cu mid (mark_seen_core cu ids msgs audios).2.1 := by
  induction ids generalizing msgs audios with
  | nil => intro mid hmem; cases hmem
  | cons mid' rest ih =>
    intro mid hmem
    rw [(mark_seen_core_cons cu mid' rest msgs audios).1,
      (mark_seen_core_cons cu mid' rest msgs audios).2]
    rcases List.mem_cons.mp hmem with rfl | hmem'
    · exact ⟨mark_seen_core_preserves_text cu mid rest _ _ (setSeenText_settles mid cu msgs),
        mark_seen_core_preserves_audio cu mid rest _ _ (setSeenAudio_settles mid cu audios)⟩
    · exact ih _ _ mid hmem'

theorem setSeenText_settled_noop (mid : Nat) (cu : String) (msgs : List MessageRow)
    (h : textSettled cu mid msgs) : setSeenText mid cu msgs = (msgs, none) := by
  cases hfind : msgs.find? (fun m => m.id == mid) with
  | none => exact setSeenText_of_none mid cu msgs hfind
  | some m =>
    rcases h m hfind with hs | hs
    · exact setSeenText_skip mid cu msgs m hfind (by simp [hs])
    · exact setSeenText_skip mid cu msgs m hfind (by simp [hs])

theorem setSeenAudio_settled_noop (mid : Nat) (cu : String) (l : List AudioRow)
    (h : audioSettled cu mid l) : setSeenAudio mid cu l = (l, none) := by
  cases hfind : l.find? (fun m => m.id == mid) with
  | none => exact setSeenAudio_of_none mid cu l hfind
  | some m =>
    rcases h m hfind with hs | hs
    · exact setSeenAudio_skip mid cu l m hfind (by simp [hs])
    · exact setSeenAudio_skip mid cu l m hfind (by simp [hs])

theorem mark_seen_core_noop (cu : String) (ids : List Nat)
    (msgs : List MessageRow) (audios : List AudioRow)
    (h : ∀ mid ∈ ids, textSettled cu mid msgs ∧ audioSettled cu mid audios) :
    mark_seen_core cu ids msgs audios = (msgs, audios, []) := by
  induction ids with
  | nil => rfl
  | cons mid rest ih =>
    have h1 := (h mid (List.mem_cons_self mid rest)).1
    have h2 := (h mid (List.mem_cons_self mid rest)).2
    have hrest : ∀ m ∈ rest, textSettled cu m msgs ∧ audioSettled cu m audios :=
      fun m hm => h m (List.mem_cons_of_mem _ hm)
    simp only [mark_seen_core, setSeenText_settled_noop mid cu msgs h1,
      setSeenAudio_settled_noop mid cu audios h2, ih hrest]
    simp

/-- C4: `mark_seen` is idempotent — running it a second time with the same
non-empty id set, viewer and room leaves the state exactly as after the first
run and emits no events (in particular no `messages_seen` to any sender). -/
theorem C4_mark_seen_idempotent (st : ServerState) (ids : List Nat) (cu : String)
    (room? : Option String) (hids : ids ≠ []) (hcu : cu ≠ "") :
    mark_seen (mark_seen st ids (some cu) room?).1 ids (some cu) room?
      = ((mark_seen st ids (some cu) room?).1, []) := by
  rcases hcore : mark_seen_core cu ids st.messages st.audio_messages with ⟨msgs', audios', upds⟩
  have hsettle := mark_seen_core_settles cu ids st.messages st.audio_messages
  rw [hcore] at hsettle
  have hst1 : (mark_seen st ids (some cu) room?).1.messages = msgs' ∧
      (mark_seen st ids (some cu) room?).1.audio_messages = audios' := by
    by_cases hupds : upds = []
    · subst hupds
      rw [mark_seen_result_empty st ids cu room? hids hcu msgs' audios' hcore]
      exact ⟨rfl, rfl⟩
    · have h := mark_seen_result_nonempty st ids cu room? hids hcu msgs' audios' upds hcore hupds
      exact ⟨h.1, h.2.1⟩
  have hcore2 : mark_seen_core cu ids (mark_seen st ids (some cu) room?).1.messages
      (mark_seen st ids (some cu) room?).1.audio_messages = (msgs', audios', []) := by
    rw [hst1.1, hst1.2]
    exact mark_seen_core_noop cu ids msgs' audios' (fun mid hmem => hsettle mid hmem)
  rw [mark_seen_result_empty (mark_seen st ids (some cu) room?).1 ids cu room?
    hids hcu msgs' audios' hcore2]
  rw [← hst1.1, ← hst1.2]

/-- Witness for C4 at the concrete state: alice marks bob's message seen
twice; the second call is a perfect no-op. -/
theorem C4_mark_seen_idempotent_witness :
    mark_seen (mark_seen stC4 [1] (some "alice") (some "alice-bob")).1 [1]
        (some "alice") (some "alice-bob")
      = ((mark_seen stC4 [1] (some "alice") (some "alice-bob")).1, []) :=
  C4_mark_seen_idempotent stC4 [1] "alice" (some "alice-bob") (by decide) (by decide)

/-! ### Claim C3: status monotonicity -/

theorem rank_le_two (s : Status) : s.rank ≤ 2 := by
  cases s <;> simp [Status.rank]

theorem rank_two_le (s : Status) (h : 2 ≤ s.rank) : s = .seen := by
  cases s <;> simp_all [Status.rank]

theorem textMono_refl (l : List MessageRow) : TextMono l l :=
  fun _ m hm => ⟨m, hm, rfl, le_refl _⟩

theorem audioMono_refl (l : List AudioRow) : AudioMono l l :=
  fun _ m hm => ⟨m, hm, rfl, le_refl _⟩

theorem textMono_trans {l₁ l₂ l₃ : List MessageRow}
    (h₁ : TextMono l₁ l₂) (h₂ : TextMono l₂ l₃) : TextMono l₁ l₃ := by
  intro id m hm
  rcases h₁ id m hm with ⟨m', hm', hs', hr'⟩
  rcases h₂ id m' hm' with ⟨m'', hm'', hs'', hr''⟩
  exact ⟨m'', hm'', hs''.trans hs', hr'.trans hr''⟩

theorem audioMono_trans {l₁ l₂ l₃ : List AudioRow}
    (h₁ : AudioMono l₁ l₂) (h₂ : AudioMono l₂ l₃) : AudioMono l₁ l₃ := by
  intro id m hm
  rcases h₁ id m hm with ⟨m', hm', hs', hr'⟩
  rcases h₂ id m' hm' with ⟨m'', hm'', hs'', hr''⟩
  exact ⟨m'', hm'', hs''.trans hs', hr'.trans hr''⟩

theorem textMono_append (l : List MessageRow) (l₂ : List MessageRow) :
    TextMono l (l ++ l₂) :=
  fun _ m hm => ⟨m, find?_append_of_some _ l l₂ m hm, rfl, le_refl _⟩

theorem audioMono_append (l : List AudioRow) (l₂ : List AudioRow) :
    AudioMono l (l ++ l₂) :=
  fun _ m hm => ⟨m, find?_append_of_some _ l l₂ m hm, rfl, le_refl _⟩

theorem promote_text_mono (rooms : List String) (username : String) (l : List MessageRow) :
    TextMono l (l.map (fun m =>
      if promotesText rooms username m then { m with status := Status.delivered } else m)) := by
  intro id m hm
  rw [find?_map_pres (fun r => r.id == id)
    (fun m => if promotesText rooms username m then { m with status := Status.delivered } else m)
    l (fun a => by by_cases hc : promotesText rooms username a = true <;> simp [hc]), hm]
  refine ⟨_, rfl, ?_, ?_⟩
  · by_cases hc : promotesText rooms username m = true <;> simp [hc]
  · by_cases hc : promotesText rooms username m = true
    · have hsent : m.status = Status.sent := by
        have := hc
        simp [promotesText] at this
        exact this.1.2
      simp [hc, hsent, Status.rank]
    · simp [hc]

theorem promote_audio_mono (rooms : List String) (username : String) (l : List AudioRow) :
    AudioMono l (l.map (fun m =>
      if promotesAudio rooms username m then { m with status := Status.delivered } else m)) := by
  intro id m hm
  rw [find?_map_pres (fun r => r.id == id)
    (fun m => if promotesAudio rooms username m then { m with status := Status.delivered } else m)
    l (fun a => by by_cases hc : promotesAudio rooms username a = true <;> simp [hc]), hm]
  refine ⟨_, rfl, ?_, ?_⟩
  · by_cases hc : promotesAudio rooms username m = true <;> simp [hc]
  · by_cases hc : promotesAudio rooms username m = true
    · have hsent : m.status = Status.sent := by
        have := hc
        simp [promotesAudio] at this
        exact this.1.2
      simp [hc, hsent, Status.rank]
    · simp [hc]

theorem updateFirst_seen_text_mono (mid : Nat) (l : List MessageRow) :
    TextMono l (updateFirst (fun x => x.id == mid)
      (fun x => { x with status := Status.seen }) l) := by
  intro id m hm
  rcases find?_updateFirst_cases (fun r => r.id == id) (fun x => x.id == mid)
    (fun x => { x with status := Status.seen }) l m (fun a => rfl) hm with hcase | hcase
  · exact ⟨m, hcase, rfl, le_refl _⟩
  · exact ⟨_, hcase, rfl, by simpa [Status.rank] using rank_le_two m.status⟩

theorem updateFirst_seen_audio_mono (mid : Nat) (l : List AudioRow) :
    AudioMono l (updateFirst (fun x => x.id == mid)
      (fun x => { x with status := Status.seen }) l) := by
  intro id m hm
  rcases find?_updateFirst_cases (fun r => r.id == id) (fun x => x.id == mid)
    (fun x => { x with status := Status.seen }) l m (fun a => rfl) hm with hcase | hcase
  · exact ⟨m, hcase, rfl, le_refl _⟩
  · exact ⟨_, hcase, rfl, by simpa [Status.rank] using rank_le_two m.status⟩

theorem setSeenText_mono (mid : Nat) (cu : String) (l : List MessageRow) :
    TextMono l (setSeenText mid cu l).1 := by
  rcases setSeenText_cases mid cu l with hc | hc <;> rw [hc]
  · exact textMono_refl l
  · exact updateFirst_seen_text_mono mid l

theorem setSeenAudio_mono (mid : Nat) (cu : String) (l : List AudioRow) :
    AudioMono l (setSeenAudio mid cu l).1 := by
  rcases setSeenAudio_cases mid cu l with hc | hc <;> rw [hc]
  · exact audioMono_refl l
  · exact updateFirst_seen_audio_mono mid l

theorem mark_seen_core_text_mono (cu : String) (ids : List Nat)
    (msgs : List MessageRow) (audios : List AudioRow) :
    TextMono msgs (mark_seen_core cu ids msgs audios).1 := by
  induction ids generalizing msgs audios with
  | nil => exact textMono_refl msgs
  | cons mid rest ih =>
    rw [(mark_seen_core_cons cu mid rest msgs audios).1]
    exact textMono_trans (setSeenText_mono mid cu msgs) (ih _ _)

theorem mark_seen_core_audio_mono (cu : String) (ids : List Nat)
    (msgs : List MessageRow) (audios : List AudioRow) :
    AudioMono audios (mark_seen_core cu ids msgs audios).2.1 := by
  induction ids generalizing msgs audios with
  | nil => exact audioMono_refl audios
  | cons mid rest ih =>
    rw [(mark_seen_core_cons cu mid rest msgs audios).2]
    exact audioMono_trans (setSeenAudio_mono mid cu audios) (ih _ _)

theorem on_send_chat_mono (st : ServerState) (room? message? sender? : Option String)
    (r1 : Option Nat) (r2 r3 : Option String) :
    TextMono st.messages (on_send_chat_message st room? message? sender? r1 r2 r3).1.messages ∧
    (on_send_chat_message st room? message? sender? r1 r2 r3).1.audio_messages
      = st.audio_messages := by
  simp only [on_send_chat_message]
  split
  · split
    · exact ⟨textMono_refl _, rfl⟩
    · exact ⟨textMono_append _ _, rfl⟩
  · exact ⟨textMono_refl _, rfl⟩

theorem on_audio_message_mono (st : ServerState) (room sender blob : String) :
    (on_audio_message st room sender blob).1.messages = st.messages ∧
    AudioMono st.audio_messages (on_audio_message st room sender blob).1.audio_messages :=
  ⟨rfl, audioMono_append _ _⟩

theorem on_register_mono (st : ServerState) (sid : String)
    (username? : Option String) (token? : Option Token) :
    TextMono st.messages (on_register st sid username? token?).2.1.messages ∧
    AudioMono st.audio_messages (on_register st sid username? token?).2.1.audio_messages := by
  simp only [on_register]
  split
  · split
    · exact ⟨textMono_refl _, audioMono_refl _⟩
    · split
      · exact ⟨textMono_refl _, audioMono_refl _⟩
      · exact ⟨promote_text_mono _ _ _, promote_audio_mono _ _ _⟩
  · exact ⟨textMono_refl _, audioMono_refl _⟩

theorem mark_seen_mono (st : ServerState) (ids : List Nat) (cu? room? : Option String) :
    TextMono st.messages (mark_seen st ids cu? room?).1.messages ∧
    AudioMono st.audio_messages (mark_seen st ids cu? room?).1.audio_messages := by
  simp only [mark_seen]
  split
  next cu =>
    split
    · exact ⟨textMono_refl _, audioMono_refl _⟩
    · rcases hcore : mark_seen_core cu ids st.messages st.audio_messages
        with ⟨msgs', audios', upds⟩
      have ht := mark_seen_core_text_mono cu ids st.messages st.audio_messages
      have ha := mark_seen_core_audio_mono cu ids st.messages st.audio_messages
      rw [hcore] at ht ha
      simp only [hcore]
      split
      · exact ⟨ht, ha⟩
      · exact ⟨ht, ha⟩
  next => exact ⟨textMono_refl _, audioMono_refl _⟩

theorem applyOp_mono (st : ServerState) (op : Op) :
    TextMono st.messages (applyOp st op).messages ∧
    AudioMono st.audio_messages (applyOp st op).audio_messages := by
  cases op with
  | sendChat room message sender =>
    have h := on_send_chat_mono st room message sender none none none
    refine ⟨h.1, ?_⟩
    show AudioMono st.audio_messages (on_send_chat_message st room message sender
      none none none).1.audio_messages
    rw [h.2]
    exact audioMono_refl _
  | audioMsg room sender blob =>
    have h := on_audio_message_mono st room sender blob
    refine ⟨?_, h.2⟩
    show TextMono st.messages (on_audio_message st room sender blob).1.messages
    rw [h.1]
    exact textMono_refl _
  | register sid u t => exact on_register_mono st sid u t
  | markSeen ids cu room => exact mark_seen_mono st ids cu room

theorem applyOps_mono (st : ServerState) (ops : List Op) :
    TextMono st.messages (applyOps st ops).messages ∧
    AudioMono st.audio_messages (applyOps st ops).audio_messages := by
  induction ops generalizing st with
  | nil => exact ⟨textMono_refl _, audioMono_refl _⟩
  | cons op rest ih =>
    have h1 := applyOp_mono st op
    have h2 := ih (applyOp st op)
    exact ⟨textMono_trans h1.1 h2.1, audioMono_trans h1.2 h2.2⟩

/-- C3: across any sequence of `send_chat_message`, `audio_message`,
`register` (delivery promotion) and `mark_seen` operations, every stored
message or audio-message status only moves forward along
sent → delivered → seen, and `seen` is terminal. -/
theorem C3_status_monotonic (st : ServerState) (ops : List Op) (id : Nat) (s : Status) :
    (statusText id st = some s →
      ∃ s', statusText id (applyOps st ops) = some s' ∧ s.rank ≤ s'.rank ∧
        (s = .seen → s' = .seen)) ∧
    (statusAudio id st = some s →
      ∃ s', statusAudio id (applyOps st ops) = some s' ∧ s.rank ≤ s'.rank ∧
        (s = .seen → s' = .seen)) := by
  constructor
  · intro hs
    rw [statusText] at hs
    rcases Option.map_eq_some'.mp hs with ⟨m, hm, hms⟩
    rcases (applyOps_mono st ops).1 id m hm with ⟨m', hm', _, hrank⟩
    refine ⟨m'.status, ?_, ?_, ?_⟩
    · rw [statusText, hm']
      rfl
    · rw [← hms]
      exact hrank
    · intro hseen
      apply rank_two_le
      have : m.status = Status.seen := by rw [hms, hseen]
      rw [this] at hrank
      exact hrank
  · intro hs
    rw [statusAudio] at hs
    rcases Option.map_eq_some'.mp hs with ⟨m, hm, hms⟩
    rcases (applyOps_mono st ops).2 id m hm with ⟨m', hm', _, hrank⟩
    refine ⟨m'.status, ?_, ?_, ?_⟩
    · rw [statusAudio, hm']
      rfl
    · rw [← hms]
      exact hrank
    · intro hseen
      apply rank_two_le
      have : m.status = Status.seen := by rw [hms, hseen]
      rw [this] at hrank
      exact hrank

/-- Witness for C3: a `sent` message survives a register (promotion) followed
by a mark_seen with its status only moving forward. -/
theorem C3_status_monotonic_witness :
    ∃ s', statusText 1 (applyOps stC3 opsC3) = some s' ∧ Status.sent.rank ≤ s'.rank ∧
      (Status.sent = .seen → s' = .seen) :=
  (C3_status_monotonic stC3 opsC3 1 .sent).1 (by decide)

/-! ### Claim C7: reaction round trip and store resolution -/

theorem lookup_setReaction (u e : String) (r : List (String × String)) :
    (setReaction u e r).find? (fun p => p.1 == u) = some (u, e) := by
  rw [setReaction, dictInsert]
  by_cases hany : r.any (fun p => p.1 == u)
  · rw [if_pos hany]
    rw [find?_map_pres (fun p => p.1 == u) (fun p => if p.1 == u then (u, e) else p) r
      (by intro a; by_cases h : (a.1 == u) = true <;> simp [h])]
    rcases List.any_eq_true.mp hany with ⟨q, hq, hqk⟩
    have hsome : (r.find? (fun p => p.1 == u)).isSome := by
      rw [List.find?_isSome]
      exact ⟨q, hq, hqk⟩
    rcases Option.isSome_iff_exists.mp hsome with ⟨q₀, hq₀⟩
    have hq₀k := List.find?_some hq₀
    rw [hq₀]
    simp at hq₀k
    simp [hq₀k]
  · rw [if_neg hany]
    have hnone : r.find? (fun p => p.1 == u) = none := by
      rw [List.find?_eq_none]
      intro x hx hpx
      exact hany (List.any_eq_true.mpr ⟨x, hx, hpx⟩)
    rw [find?_append_of_none _ _ _ hnone]
    simp

theorem any_setReaction (u e : String) (r : List (String × String)) :
    (setReaction u e r).any (fun p => p.1 == u) = true :=
  List.any_eq_true.mpr ⟨(u, e), mem_dictInsert_self u e r, by simp⟩

theorem filter_not_key_map (u e : String) (r : List (String × String)) :
    (r.map (fun p => if p.1 == u then (u, e) else p)).filter (fun p => !(p.1 == u))
      = r.filter (fun p => !(p.1 == u)) := by
  induction r with
  | nil => rfl
  | cons a rest ih =>
    by_cases ha : (a.1 == u) = true
    · simp only [List.map_cons, if_pos ha]
      rw [List.filter_cons, List.filter_cons, if_neg (by simp), if_neg (by simp [ha])]
      exact ih
    · simp only [List.map_cons, if_neg ha]
      rw [List.filter_cons, List.filter_cons, if_pos (by simp [ha]), if_pos (by simp [ha])]
      rw [ih]

theorem eraseReaction_setReaction (u e : String) (r : List (String × String)) :
    eraseReaction u (setReaction u e r) = eraseReaction u r := by
  rw [setReaction, dictInsert]
  by_cases hany : r.any (fun p => p.1 == u)
  · rw [if_pos hany]
    exact filter_not_key_map u e r
  · rw [if_neg hany]
    rw [eraseReaction, eraseReaction, List.filter_append]
    simp

theorem react_message_audio_hit (st : ServerState) (mid : Nat) (e u : String) (a : AudioRow)
    (hmid : mid ≠ 0) (hu : u ≠ "") (he : e ≠ "")
    (hfind : st.audio_messages.find? (fun x => x.id == mid) = some a) :
    (react_message st (some mid) (some e) (some u)).2.1.audio_messages
      = updateFirst (fun x => x.id == mid)
          (fun x => { x with reactions := setReaction u e a.reactions }) st.audio_messages ∧
    (react_message st (some mid) (some e) (some u)).2.1.messages = st.messages := by
  simp only [react_message]
  rw [if_neg (by simp [hmid, hu, he]), hfind]
  exact ⟨rfl, rfl⟩

theorem react_message_text_hit (st : ServerState) (mid : Nat) (e u : String) (m : MessageRow)
    (hmid : mid ≠ 0) (hu : u ≠ "") (he : e ≠ "")
    (haudio : st.audio_messages.find? (fun x => x.id == mid) = none)
    (hfind : st.messages.find? (fun x => x.id == mid) = some m) :
    (react_message st (some mid) (some e) (some u)).2.1.messages
      = updateFirst (fun x => x.id == mid)
          (fun x => { x with reactions := setReaction u e m.reactions }) st.messages ∧
    (react_message st (some mid) (some e) (some u)).2.1.audio_messages
      = st.audio_messages := by
  simp only [react_message]
  rw [if_neg (by simp [hmid, hu, he]), haudio, hfind]
  exact ⟨rfl, rfl⟩

theorem remove_reaction_text_hit (st : ServerState) (mid : Nat) (u : String) (m : MessageRow)
    (hmid : mid ≠ 0) (hu : u ≠ "")
    (hfind : st.messages.find? (fun x => x.id == mid) = some m)
    (hmem : m.reactions.any (fun p => p.1 == u) = true) :
    (remove_reaction st (some mid) (some u)).2.1.messages
      = updateFirst (fun x => x.id == mid)
          (fun x => { x with reactions := eraseReaction u m.reactions }) st.messages ∧
    (remove_reaction st (some mid) (some u)).2.1.audio_messages = st.audio_messages := by
  simp only [remove_reaction]
  rw [if_neg (by simp [hmid, hu])]
  simp only [hfind]
  rw [if_pos hmem]
  exact ⟨rfl, rfl⟩

theorem remove_reaction_audio_hit (st : ServerState) (mid : Nat) (u : String) (a : AudioRow)
    (hmid : mid ≠ 0) (hu : u ≠ "")
    (htext : st.messages.find? (fun x => x.id == mid) = none)
    (hfind : st.audio_messages.find? (fun x => x.id == mid) = some a)
    (hmem : a.reactions.any (fun p => p.1 == u) = true) :
    (remove_reaction st (some mid) (some u)).2.1.audio_messages
      = updateFirst (fun x => x.id == mid)
          (fun x => { x with reactions := eraseReaction u a.reactions }) st.audio_messages ∧
    (remove_reaction st (some mid) (some u)).2.1.messages = st.messages := by
  simp only [remove_reaction]
  rw [if_neg (by simp [hmid, hu])]
  simp only [htext, hfind]
  rw [if_pos hmem]
  exact ⟨rfl, rfl⟩

/-- C7 counterexample: for id 1 present in *both* stores, `react_message`
(audio-first) writes u ↦ e onto the audio record, but `remove_reaction`
(Message-first) deletes from the text record, so after the round trip the
audio record — the record addReaction targeted — still maps u to e. -/
theorem C7_counterexample :
    ((remove_reaction (react_message stC7 (some 1) (some "e") (some "u")).2.1
        (some 1) (some "u")).2.1.audio_messages.find? (fun a => a.id == 1)).map
      (fun a => a.reactions) = some [("u", "e")] ∧
    ((remove_reaction (react_message stC7 (some 1) (some "e") (some "u")).2.1
        (some 1) (some "u")).2.1.messages.find? (fun m => m.id == 1)).map
      (fun m => m.reactions) = some [] := by
  decide

/-- C7 (amended): `react_message` resolves the AudioMessage store first but
`remove_reaction` resolves the Message store first; for an id present in
exactly one store the two operations target the same record — addReaction
alone yields a mapping with u ↦ e, and the following removeReaction restores
that record's reactions to the mapping without key u; for an id in both
stores they target different records. -/
theorem C7_amended_roundtrip_single_store (st : ServerState) (mid : Nat) (u e : String)
    (hmid : mid ≠ 0) (hu : u ≠ "") (he : e ≠ "") :
    (∀ a, st.audio_messages.find? (fun x => x.id == mid) = some a →
      st.messages.find? (fun x => x.id == mid) = none →
      (((react_message st (some mid) (some e) (some u)).2.1.audio_messages.find?
          (fun x => x.id == mid)).map (fun x => x.reactions)
          = some (setReaction u e a.reactions) ∧
       (setReaction u e a.reactions).find? (fun p => p.1 == u) = some (u, e) ∧
       ((remove_reaction (react_message st (some mid) (some e) (some u)).2.1
            (some mid) (some u)).2.1.audio_messages.find?
          (fun x => x.id == mid)).map (fun x => x.reactions)
          = some (eraseReaction u a.reactions))) ∧
    (∀ m, st.messages.find? (fun x => x.id == mid) = some m →
      st.audio_messages.find? (fun x => x.id == mid) = none →
      (((react_message st (some mid) (some e) (some u)).2.1.messages.find?
          (fun x => x.id == mid)).map (fun x => x.reactions)
          = some (setReaction u e m.reactions) ∧
       (setReaction u e m.reactions).find? (fun p => p.1 == u) = some (u, e) ∧
       ((remove_reaction (react_message st (some mid) (some e) (some u)).2.1
            (some mid) (some u)).2.1.messages.find?
          (fun x => x.id == mid)).map (fun x => x.reactions)
          = some (eraseReaction u m.reactions))) := by
  constructor
  · intro a hfind htext
    have hreact := react_message_audio_hit st mid e u a hmid hu he hfind
    have hfind1 : (react_message st (some mid) (some e) (some u)).2.1.audio_messages.find?
        (fun x => x.id == mid)
        = some { a with reactions := setReaction u e a.reactions } := by
      rw [hreact.1, find?_updateFirst_self (fun x => x.id == mid)
        (fun x => { x with reactions := setReaction u e a.reactions })
        st.audio_messages (fun x => rfl), hfind]
      rfl
    refine ⟨by rw [hfind1]; rfl, lookup_setReaction u e a.reactions, ?_⟩
    have htext1 : (react_message st (some mid) (some e) (some u)).2.1.messages.find?
        (fun x => x.id == mid) = none := by
      rw [hreact.2]
      exact htext
    generalize hA : ({ a with reactions := setReaction u e a.reactions } : AudioRow) = a'
      at hfind1
    have hmem1 : a'.reactions.any (fun p => p.1 == u) = true := by
      rw [← hA]
      exact any_setReaction u e a.reactions
    have hrem := remove_reaction_audio_hit (react_message st (some mid) (some e) (some u)).2.1
      mid u a' hmid hu htext1 hfind1 hmem1
    rw [hrem.1]
    rw [find?_updateFirst_self (fun x => x.id == mid)
      (fun (x : AudioRow) => { x with reactions := eraseReaction u a'.reactions })
      _ (fun x => rfl)]
    rw [hfind1]
    have herase : eraseReaction u a'.reactions = eraseReaction u a.reactions := by
      rw [← hA]
      exact eraseReaction_setReaction u e a.reactions
    show some (eraseReaction u a'.reactions) = some (eraseReaction u a.reactions)
    rw [herase]
  · intro m hfind haudio
    have hreact := react_message_text_hit st mid e u m hmid hu he haudio hfind
    have hfind1 : (react_message st (some mid) (some e) (some u)).2.1.messages.find?
        (fun x => x.id == mid)
        = some { m with reactions := setReaction u e m.reactions } := by
      rw [hreact.1, find?_updateFirst_self (fun x => x.id == mid)
        (fun x => { x with reactions := setReaction u e m.reactions })
        st.messages (fun x => rfl), hfind]
      rfl
    refine ⟨by rw [hfind1]; rfl, lookup_setReaction u e m.reactions, ?_⟩
    generalize hA : ({ m with reactions := setReaction u e m.reactions } : MessageRow) = m'
      at hfind1
    have hmem1 : m'.reactions.any (fun p => p.1 == u) = true := by
      rw [← hA]
      exact any_setReaction u e m.reactions
    have hrem := remove_reaction_text_hit (react_message st (some mid) (some e) (some u)).2.1
      mid u m' hmid hu hfind1 hmem1
    rw [hrem.1]
    rw [find?_updateFirst_self (fun x => x.id == mid)
      (fun (x : MessageRow) => { x with reactions := eraseReaction u m'.reactions })
      _ (fun x => rfl)]
    rw [hfind1]
    have herase : eraseReaction u m'.reactions = eraseReaction u m.reactions := by
      rw [← hA]
      exact eraseReaction_setReaction u e m.reactions
    show some (eraseReaction u m'.reactions) = some (eraseReaction u m.reactions)
    rw [herase]

/-- Witness for the amended C7 on an audio-only id. -/
theorem C7_amended_roundtrip_single_store_witness :
    ((react_message stC7b (some 1) (some "e") (some "u")).2.1.audio_messages.find?
        (fun x => x.id == 1)).map (fun x => x.reactions)
      = some (setReaction "u" "e" (mkAudio 1 "a-b" "a" .sent []).reactions) ∧
    (setReaction "u" "e" (mkAudio 1 "a-b" "a" .sent []).reactions).find?
        (fun p => p.1 == "u") = some ("u", "e") ∧
    ((remove_reaction (react_message stC7b (some 1) (some "e") (some "u")).2.1
        (some 1) (some "u")).2.1.audio_messages.find?
        (fun x => x.id == 1)).map (fun x => x.reactions)
      = some (eraseReaction "u" (mkAudio 1 "a-b" "a" .sent []).reactions) :=
  (C7_amended_roundtrip_single_store stC7b 1 "u" "e"
    (by decide) (by decide) (by decide)).1 (mkAudio 1 "a-b" "a" .sent [])
    (by decide) (by decide)
